import Mathlib

set_option autoImplicit false

namespace Phlex

/-!
Shallow embedding of the phlex dataflow-framework registration layer and
product-store model, translated from the repository sources
(src/phlex/core/registration_api.hpp, src/phlex/model/product_store.hpp,
src/form/form/form.cpp and the graph-proxy header).  Functions whose
definitions are not part of the sources (only declared there) are modelled
from the specification and say so in their doc comments.
-/

/-! ## Registrar (src/phlex/core/registration_api.hpp, registrar section)

A registered node, as far as the registrar is concerned, is a value with a
full name; the registrar stores it in the catalog keyed by that name.  The
creator closure receives the predicates list and the output-products list
and produces the node. -/

/-- A materialized graph node: the payload the creator closure produces.
The registrar only inspects its full name; we also record the predicates
and output products the creator received so theorems can speak about them. -/
structure graph_node where
  full_name : String
  predicates : List String
  output_products : List String
deriving DecidableEq, Repr

/-- The creator closure type: `std::function<Ptr(std::vector<std::string>,
std::vector<std::string>)>` receiving predicates and output-product labels. -/
abbrev node_creator := List String → List String → graph_node

/-- The node catalog as an association list keyed by full name, in insertion
order.  Models the `simple_ptr_map<Ptr>` that `registrar` points into. -/
abbrev catalog := List (String × graph_node)

/-- Lookup of a full name in the catalog (first entry wins, as in a map). -/
def catalog_lookup (cat : catalog) (name : String) : Option graph_node :=
  cat.lookup name

/-- Modelled from the spec: `detail::add_to_error_messages` is declared in the
registrar header but defined outside src/.  The spec says a duplicate full
name "is recorded in a shared error-vector", so it is modelled as appending
exactly one message derived from the offending name. -/
def add_to_error_messages (errors : List String) (name : String) : List String :=
  errors ++ ["Duplicate registration of node " ++ name]

/-- The mutable fields of `registrar<Ptr>`: an optional creator, optional
predicates, and output products (defaulted to the empty vector). -/
structure registrar where
  creator : Option node_creator
  predicates : Option (List String)
  output_products : List String

/-- A fresh registrar as built by `node_catalog::registrar_for`. -/
def registrar.init : registrar :=
  { creator := none, predicates := none, output_products := [] }

/-- `registrar::set_creator`. -/
def registrar.set_creator (r : registrar) (c : node_creator) : registrar :=
  { r with creator := some c }

/-- `registrar::set_predicates`. -/
def registrar.set_predicates (r : registrar) (ps : Option (List String)) : registrar :=
  { r with predicates := ps }

/-- `registrar::release_predicates`: the stored predicates or the empty list. -/
def registrar.release_predicates (r : registrar) : List String :=
  r.predicates.getD []

/-- The externally visible effect of firing the registrar: the catalog and
error vector after the operation, plus the list of creator invocations that
took place (each recorded as the pair of argument lists passed). -/
structure reg_effect where
  cat : catalog
  errors : List String
  invocations : List (List String × List String)
deriving Repr

/-- `registrar::create_node`: invoke the creator on the released predicates
and the given output-product labels, then `try_emplace` the node under its
full name; on a duplicate, record an error message instead. -/
def registrar.create_node (r : registrar) (c : node_creator)
    (output_product_labels : List String) (cat : catalog)
    (errors : List String) : reg_effect :=
  let ptr := c r.release_predicates output_product_labels
  let name := ptr.full_name
  if (catalog_lookup cat name).isSome then
    { cat := cat
      errors := add_to_error_messages errors name
      invocations := [(r.release_predicates, output_product_labels)] }
  else
    { cat := cat ++ [(name, ptr)]
      errors := errors
      invocations := [(r.release_predicates, output_product_labels)] }

/-- `registrar::set_output_products`: eagerly constructs the node with the
given output products and clears the creator.  Returns `none` when no
creator is present (the C++ code would fail its assertion). -/
def registrar.set_output_products (r : registrar) (output_products : List String)
    (cat : catalog) (errors : List String) : Option (registrar × reg_effect) :=
  match r.creator with
  | none => none
  | some c =>
    some ({ r with creator := none }, r.create_node c output_products cat errors)

/-- `registrar::~registrar`: if a creator is still present, construct the node
with the stored output products; otherwise do nothing. -/
def registrar.destroy (r : registrar) (cat : catalog)
    (errors : List String) : reg_effect :=
  match r.creator with
  | none => { cat := cat, errors := errors, invocations := [] }
  | some c => r.create_node c r.output_products cat errors

/-- One full registration statement: set the creator, optionally set
predicates, optionally call `output_products`, then let the registrar go out
of scope.  Returns the combined effect (catalog, errors, and every creator
invocation that occurred, in order). -/
def run_statement (c : node_creator) (preds : Option (List String))
    (outs : Option (List String)) (cat : catalog)
    (errors : List String) : reg_effect :=
  let r0 := registrar.init.set_creator c
  let r1 := match preds with
            | none => r0
            | some ps => r0.set_predicates (some ps)
  match outs with
  | none => r1.destroy cat errors
  | some o =>
    match r1.set_output_products o cat errors with
    | none => r1.destroy cat errors
    | some (r2, eff1) =>
      let eff2 := r2.destroy eff1.cat eff1.errors
      { cat := eff2.cat
        errors := eff2.errors
        invocations := eff1.invocations ++ eff2.invocations }

/-! ## Product store (src/phlex/model/product_store.hpp)

The header declares the store interface; the member-function bodies are not
part of the sources, so they are modelled from the specification where
noted.  A store holds a weak parent pointer, a level id (a path of
(level-name, level-number) segments), a source tag, a processing stage and a
product map. -/

/-- The processing stage of a store: `stage ∈ \x7bprocess, flush\x7d`. -/
inductive stage where
  | process
  | flush
deriving DecidableEq, Repr

/-- The product map `product_name → product`; product payloads are opaque to
the store logic and modelled as naturals. -/
abbrev products := List (String × Nat)

/-- A product store: parent back-reference (none at the root), level id,
source tag, stage, and products, mirroring the data members `parent_`,
`id_`, `source_`, `stage_`, `products_`. -/
inductive product_store where
  | mk : Option product_store → List (String × Nat) → String → stage → products →
         product_store
deriving Repr

namespace product_store

/-- Structural equality test for stores (spelled out because the parent
field nests the type inside Option). -/
def beq : product_store → product_store → Bool
  | mk p i s st ps, mk q j t st2 qs =>
    (match p, q with
     | none, none => true
     | some a, some b => beq a b
     | none, some _ => false
     | some _, none => false) && i == j && s == t && st == st2 && ps == qs

theorem beq_iff_eq : (a b : product_store) → (beq a b = true ↔ a = b)
  | mk none i s st ps, mk none j t st2 qs => by
      simp [beq]
      tauto
  | mk none i s st ps, mk (some b) j t st2 qs => by
      simp [beq]
  | mk (some a) i s st ps, mk none j t st2 qs => by
      simp [beq]
  | mk (some a) i s st ps, mk (some b) j t st2 qs => by
      have ih := beq_iff_eq a b
      simp [beq, ih]
      tauto

instance : DecidableEq product_store := fun a b =>
  decidable_of_iff (beq a b = true) (beq_iff_eq a b)

/-- The `parent_` data member (also the result of `parent()`). -/
def parent : product_store → Option product_store
  | mk p _ _ _ _ => p

/-- The `id_` data member. -/
def id : product_store → List (String × Nat)
  | mk _ i _ _ _ => i

/-- The `source_` data member. -/
def source : product_store → String
  | mk _ _ s _ _ => s

/-- The `stage_` data member. -/
def stage_of : product_store → stage
  | mk _ _ _ st _ => st

/-- The `products_` data member. -/
def products_of : product_store → products
  | mk _ _ _ _ ps => ps

/-- `level_name()`: the level name of the store, i.e. the name of the last
segment of its level id. -/
def level_name (s : product_store) : String :=
  ((s.id.getLast?).map Prod.fst).getD ""

/-- Modelled from the spec: the body of `product_store::base()` is not under
src/.  The root store has no parent, id `(job, 0)`, empty source, stage
process and no products. -/
def base : product_store :=
  mk none [("job", 0)] "" stage.process []

/-- Modelled from the spec: the body of the products overload of
`make_child` is not under src/.  It creates a child of the given store at
the given level, stage process, with the new products embedded. -/
def make_child (s : product_store) (new_level_number : Nat)
    (new_level_name : String) (src : String)
    (new_products : products) : product_store :=
  mk (some s) (s.id ++ [(new_level_name, new_level_number)]) src stage.process new_products

/-- Modelled from the spec: the body of the stage overload of `make_child`
is not under src/.  It creates a child without products at the given stage. -/
def make_child_at_stage (s : product_store) (new_level_number : Nat)
    (new_level_name : String) (src : String) (st : stage) : product_store :=
  mk (some s) (s.id ++ [(new_level_name, new_level_number)]) src st []

/-- Modelled from the spec: the body of `make_continuation` is not under
src/.  The continuation shares the originating store's id and parent (so it
sits at the same level), has stage process, and carries the new products. -/
def make_continuation (s : product_store) (src : String)
    (new_products : products) : product_store :=
  mk s.parent s.id src stage.process new_products

/-- Modelled from the spec: the body of `make_flush` is not under src/.  The
flush store is a sibling of the originating store (same parent, same id),
has stage flush, and carries no products. -/
def make_flush (s : product_store) : product_store :=
  mk s.parent s.id "" stage.flush []

/-- `is_flush()`. -/
def is_flush (s : product_store) : Bool :=
  s.stage_of = stage.flush

/-- `contains_product(key)`: whether the store's own product map has the key. -/
def contains_product (s : product_store) (key : String) : Bool :=
  (s.products_of.lookup key).isSome

/-- The chain of a store: the store itself followed by its ancestors, root
last.  This is the notion of "ancestor or self" used by the walking
operations. -/
def chain : product_store → List product_store
  | mk none i src st ps => [mk none i src st ps]
  | mk (some p) i src st ps => mk (some p) i src st ps :: chain p

/-- The depth of a store: the length of its chain of ancestors-or-self. -/
def depth (s : product_store) : Nat :=
  s.chain.length

/-- Modelled from the spec: the body of `store_for_product` is not under
src/.  It walks up from the store through its ancestors until a store
owning the product name is found, returning null if none is. -/
def store_for_product (product_name : String) : product_store → Option product_store
  | mk p i src st ps =>
    if ((ps.lookup product_name).isSome : Bool) then some (mk p i src st ps)
    else
      match p with
      | none => none
      | some q => store_for_product product_name q

/-- Modelled from the spec: the body of the level-name overload of
`parent(level_name)` is not under src/.  Per the spec it returns the nearest
ancestor whose level name matches, where a store at the requested level
answers for itself (the spec's round-trip example has a run-level child
answer its own `parent("run")` query). -/
def parent_with_level_name (ln : String) : product_store → Option product_store
  | mk p i src st ps =>
    if level_name (mk p i src st ps) = ln then some (mk p i src st ps)
    else
      match p with
      | none => none
      | some q => parent_with_level_name ln q

end product_store

/-- Modelled from the spec: `more_derived` is only declared in the store
header; its body is not under src/.  Among two stores it selects the one
deeper in the hierarchy: the descendant wins, and if the two are
incomparable the second is returned. -/
def more_derived (a b : product_store) : product_store :=
  if b ∈ a.chain then a else b

/-- The recursive helper `get_most_derived<I>` of the header, which folds
`more_derived` across the remaining tuple elements (translated from the
source template; the list holds the elements from index I on). -/
def get_most_derived : List product_store → product_store → product_store
  | [], element => element
  | x :: xs, element => get_most_derived xs (more_derived element x)

/-- `most_derived` over a non-empty tuple, given as its first element and
the list of remaining ones (translated from the source template: the
one-element tuple returns its element, otherwise the fold starts at index 1
seeded with element 0). -/
def most_derived (first : product_store) (rest : List product_store) : product_store :=
  match rest with
  | [] => first
  | x :: xs => get_most_derived (x :: xs) first

/-- The stores reachable through the store lifecycle constructors: the root
`base()` and the `make_child` / `make_continuation` / `make_flush` family. -/
inductive built : product_store → Prop
  | base : built product_store.base
  | child (s : product_store) (n : Nat) (ln src : String) (ps : products) :
      built s → built (s.make_child n ln src ps)
  | child_at_stage (s : product_store) (n : Nat) (ln src : String) (st : stage) :
      built s → built (s.make_child_at_stage n ln src st)
  | continuation (s : product_store) (src : String) (ps : products) :
      built s → built (s.make_continuation src ps)
  | flush (s : product_store) : built s → built s.make_flush

/-! ## Graph proxy fold declaration (graph_proxy.hpp and the fold_api of
src/phlex/core/registration_api.hpp) -/

/-- The per-node concurrency request.  Modelled from the spec where the
header is not under src/: a concurrency value wraps the permit count. -/
structure concurrency where
  value : Nat
deriving DecidableEq, Repr

/-- Modelled from the spec: concurrency.hpp is not under src/; the spec says
a serial node is a single-permit node. -/
def concurrency.serial : concurrency := { value := 1 }

/-- The data a constructed fold node carries that the registration layer
determines: full name, permit count, upstream predicates, input labels,
output products, the partition key, the combiner and the initializer
(translated from the fold_node construction in fold_api::input_family). -/
structure fold_node (Alg Init : Type) where
  name : String
  concurrency : Nat
  predicates : List String
  alg : Alg
  init : Init
  inputs : List String
  output_products : List String
  partition : String

/-- The state of a fold_api object after construction: the fields stored by
the fold_api constructor of src/phlex/core/registration_api.hpp. -/
structure fold_api (Alg Init : Type) where
  name : String
  alg : Alg
  concurrency : concurrency
  partition : String
  init : Init

/-- `fold_api::input_family`: installs a creator that, given the upstream
predicates and output products, constructs the fold node from the stored
name, concurrency value, algorithm, initializer, inputs, and partition. -/
def fold_api.input_family {Alg Init : Type} (api : fold_api Alg Init)
    (inputs : List String) :
    List String → List String → fold_node Alg Init :=
  fun predicates output_products =>
    { name := api.name
      concurrency := api.concurrency.value
      predicates := predicates
      alg := api.alg
      init := api.init
      inputs := inputs
      output_products := output_products
      partition := api.partition }

/-- `graph_proxy::fold` with the source's default arguments
`concurrency c = concurrency::serial` and `std::string partition = "job"`;
the glue layer (not under src/, modelled from the spec) forwards the
arguments unchanged into a fold_api. -/
def graph_proxy_fold {Alg Init : Type} (name : String) (f : Alg)
    (init : Init) (c : concurrency := concurrency.serial)
    (partition : String := "job") : fold_api Alg Init :=
  { name := name, alg := f, concurrency := c, partition := partition, init := init }

/-! ## form_interface::write (src/form/form/form.cpp) -/

/-- `mock_phlex::product_base`: a product carried to persistence, with a
label, segment id, opaque data pointer (modelled as a natural) and a type
index (modelled as a natural). -/
structure product_base where
  label : String
  id : String
  data : Nat
  type : Nat
deriving DecidableEq, Repr

/-- A `form::experimental::config::PersistenceItem`. -/
structure PersistenceItem where
  product_name : String
  file_name : String
  technology : Int
deriving DecidableEq, Repr

/-- One call into the persistence backend, recorded for the trace of a
write. -/
inductive persistence_op where
  | createContainers (creator : String) (prods : List (String × String))
  | registerWrite (creator label : String) (data : Nat) (type_name : String)
  | commitOutput (creator id : String)
deriving DecidableEq, Repr

/-- `m_type_map->names[pb.type]`: map subscript access, yielding the mapped
name or a default-constructed (empty) string when the type is absent. -/
def type_name_of (names : List (Nat × String)) (t : Nat) : String :=
  (names.lookup t).getD ""

/-- Insertion into the `products` std::map built by the batch write: a
`map::insert` keeps the existing entry when the key is already present. -/
def products_insert (m : List (String × String)) (k v : String) :
    List (String × String) :=
  if (m.lookup k).isSome then m else m ++ [(k, v)]

/-- The `std::map<std::string, std::string> products` argument assembled by
the batch overload of `form_interface::write` before `createContainers`. -/
def write_products_arg (names : List (Nat × String))
    (batch : List product_base) : List (String × String) :=
  batch.foldl (fun m pb => products_insert m pb.label (type_name_of names pb.type)) []

/-- The batch overload of `form_interface::write`, returning the sequence of
persistence-backend calls it performs, or the thrown message.  An empty
batch returns immediately; otherwise the configuration is looked up for the
first element's label, containers are created, one registerWrite is issued
per element, and a single commitOutput is issued with the first element's
id. -/
def form_interface_write (m_product_to_config : List (String × PersistenceItem))
    (names : List (Nat × String)) (creator : String)
    (batch : List product_base) : Except String (List persistence_op) :=
  match batch with
  | [] => Except.ok []
  | pb0 :: _ =>
    match m_product_to_config.lookup pb0.label with
    | none => Except.error ("No configuration found for product: " ++ pb0.label)
    | some _ =>
      Except.ok
        ([persistence_op.createContainers creator (write_products_arg names batch)]
          ++ batch.map (fun pb =>
              persistence_op.registerWrite creator pb.label pb.data
                (type_name_of names pb.type))
          ++ [persistence_op.commitOutput creator pb0.id])

/-- Whether a persistence call is a registerWrite. -/
def is_registerWrite : persistence_op → Bool
  | persistence_op.registerWrite _ _ _ _ => true
  | _ => false

/-- Whether a persistence call is a commitOutput. -/
def is_commitOutput : persistence_op → Bool
  | persistence_op.commitOutput _ _ => true
  | _ => false

/-! ## Theorems about the registrar -/

theorem catalog_lookup_append_of_none (cat l2 : catalog) (k : String)
    (h : catalog_lookup cat k = none) :
    catalog_lookup (cat ++ l2) k = catalog_lookup l2 k := by
  induction cat with
  | nil => simp [catalog_lookup]
  | cons e t ih =>
    simp only [catalog_lookup, List.lookup] at h ⊢
    cases he : (k == e.1) with
    | true => simp [he] at h
    | false =>
      simp only [he] at h ⊢
      exact ih h

theorem catalog_lookup_singleton (k : String) (v : graph_node) :
    catalog_lookup [(k, v)] k = some v := by
  simp [catalog_lookup, List.lookup]

/-- C1: for every registrar whose creator has been set and not yet fired or
cleared, destruction invokes the creator exactly once with the stored
predicates list (or the empty list if none was set) and the stored
output-products list, and the resulting node ends up in the catalog under
its full name (added as a fresh entry when the name was not yet present). -/
theorem C1_destructor_fires_creator_once (c : node_creator)
    (preds : Option (List String)) (outs : List String) (cat : catalog)
    (errors : List String) :
    let r : registrar := { creator := some c, predicates := preds, output_products := outs }
    let node := c (preds.getD []) outs
    let eff := r.destroy cat errors
    eff.invocations = [(preds.getD [], outs)] ∧
    (catalog_lookup eff.cat node.full_name).isSome = true ∧
    (catalog_lookup cat node.full_name = none →
      eff.cat = cat ++ [(node.full_name, node)] ∧
      catalog_lookup eff.cat node.full_name = some node ∧
      eff.errors = errors) := by
  intro r node eff
  have heff : eff = r.create_node c outs cat errors := rfl
  by_cases hdup : (catalog_lookup cat node.full_name).isSome = true
  · refine ⟨?_, ?_, ?_⟩
    · rw [heff]
      simp [registrar.create_node, registrar.release_predicates, node, hdup]
    · rw [heff]
      simp [registrar.create_node, registrar.release_predicates, node, hdup]
    · intro hnone
      rw [hnone] at hdup
      simp at hdup
  · have hnone : catalog_lookup cat node.full_name = none := by
      cases hlk : catalog_lookup cat node.full_name with
      | none => rfl
      | some v => rw [hlk] at hdup; simp at hdup
    have hcat : eff.cat = cat ++ [(node.full_name, node)] := by
      rw [heff]
      simp [registrar.create_node, registrar.release_predicates, node, hdup]
    have hlook : catalog_lookup eff.cat node.full_name = some node := by
      rw [hcat, catalog_lookup_append_of_none cat _ _ hnone, catalog_lookup_singleton]
    refine ⟨?_, ?_, fun _ => ⟨hcat, hlook, ?_⟩⟩
    · rw [heff]
      simp [registrar.create_node, registrar.release_predicates, node, hdup]
    · rw [hlook]
      rfl
    · rw [heff]
      simp [registrar.create_node, registrar.release_predicates, node, hdup]

/-- Witness for C1 at a concrete creator, predicates and catalog. -/
theorem C1_witness :
    let c : node_creator := fun ps os => { full_name := "plug:alg", predicates := ps, output_products := os }
    let r : registrar := { creator := some c, predicates := some ["pos"], output_products := ["y"] }
    let eff := r.destroy [] []
    eff.invocations = [(["pos"], ["y"])] ∧
    catalog_lookup eff.cat "plug:alg"
      = some { full_name := "plug:alg", predicates := ["pos"], output_products := ["y"] } := by
  intro c r eff
  have h := C1_destructor_fires_creator_once c (some ["pos"]) ["y"] [] []
  exact ⟨h.1, (h.2.2 rfl).2.1⟩

/-- C2: when the full name produced by the creator already has (exactly one)
entry in the catalog, firing the registrar leaves the catalog unchanged —
still exactly one entry for that name, the first — and appends exactly one
duplicate-registration message to the shared error vector. -/
theorem C2_duplicate_registration (c : node_creator)
    (preds : Option (List String)) (outs : List String) (cat : catalog)
    (errors : List String) (first : graph_node)
    (h1 : catalog_lookup cat ((c (preds.getD []) outs).full_name) = some first)
    (h2 : cat.countP (fun e => e.1 == (c (preds.getD []) outs).full_name) = 1) :
    let r : registrar := { creator := some c, predicates := preds, output_products := outs }
    let name := (c (preds.getD []) outs).full_name
    let eff := r.destroy cat errors
    eff.cat = cat ∧
    catalog_lookup eff.cat name = some first ∧
    eff.cat.countP (fun e => e.1 == name) = 1 ∧
    eff.errors = errors ++ ["Duplicate registration of node " ++ name] ∧
    eff.errors.length = errors.length + 1 := by
  intro r name eff
  have hdup : (catalog_lookup cat name).isSome = true := by
    rw [h1]; rfl
  have hcat : eff.cat = cat := by
    show (r.create_node c outs cat errors).cat = cat
    simp [registrar.create_node, registrar.release_predicates, hdup]
  have herr : eff.errors = errors ++ ["Duplicate registration of node " ++ name] := by
    show (r.create_node c outs cat errors).errors = _
    simp [registrar.create_node, registrar.release_predicates, hdup,
          add_to_error_messages]
  refine ⟨hcat, ?_, ?_, herr, ?_⟩
  · rw [hcat]; exact h1
  · rw [hcat]; exact h2
  · rw [herr]; simp

/-- Witness for C2: registering a node whose name is already in the catalog. -/
theorem C2_witness :
    let c : node_creator := fun ps os => { full_name := "plug:alg", predicates := ps, output_products := os }
    let first : graph_node := { full_name := "plug:alg", predicates := [], output_products := [] }
    let r : registrar := { creator := some c, predicates := none, output_products := [] }
    let eff := r.destroy [("plug:alg", first)] ["old"]
    eff.cat = [("plug:alg", first)] ∧
    catalog_lookup eff.cat "plug:alg" = some first ∧
    eff.errors = ["old", "Duplicate registration of node plug:alg"] := by
  intro c first r eff
  have h := C2_duplicate_registration c none [] [("plug:alg", first)] ["old"] first
    (by rfl) (by rfl)
  exact ⟨h.1, h.2.1, h.2.2.2.1⟩

/-- C3: output_products fires the creator eagerly (exactly one invocation)
and clears it, so the subsequent destructor performs no further
construction; a full registration statement therefore invokes the creator
exactly once whether or not output_products was called. -/
theorem C3_exactly_one_registration (c : node_creator)
    (preds : Option (List String)) (outs0 o : List String) (cat : catalog)
    (errors : List String) :
    let r0 : registrar := { creator := some c, predicates := preds, output_products := outs0 }
    (∀ (r1 : registrar) (eff1 : reg_effect),
       r0.set_output_products o cat errors = some (r1, eff1) →
       r1.creator = none ∧
       eff1.invocations = [(preds.getD [], o)] ∧
       (r1.destroy eff1.cat eff1.errors).invocations = []) ∧
    (run_statement c preds (some o) cat errors).invocations.length = 1 ∧
    (run_statement c preds none cat errors).invocations.length = 1 := by
  intro r0
  have hinv : ∀ (os : List String) (ct : catalog) (es : List String) (r : registrar)
      (cr : node_creator), (r.create_node cr os ct es).invocations
        = [(r.release_predicates, os)] := by
    intro os ct es r cr
    by_cases h : (catalog_lookup ct ((cr r.release_predicates os).full_name)).isSome = true
    · simp [registrar.create_node, h]
    · simp [registrar.create_node, h]
  refine ⟨?_, ?_, ?_⟩
  · intro r1 eff1 hset
    have hr1 : r1 = { r0 with creator := none } := by
      have := congrArg Prod.fst (Option.some.inj hset)
      simpa [registrar.set_output_products] using this.symm
    have heff1 : eff1 = r0.create_node c o cat errors := by
      have := congrArg Prod.snd (Option.some.inj hset)
      simpa [registrar.set_output_products] using this.symm
    refine ⟨by rw [hr1], ?_, ?_⟩
    · rw [heff1, hinv]
      cases preds <;> rfl
    · rw [hr1]
      rfl
  · cases preds with
    | none =>
      simp only [run_statement, registrar.init, registrar.set_creator,
        registrar.set_output_products, registrar.destroy]
      rw [hinv]
      rfl
    | some ps =>
      simp only [run_statement, registrar.init, registrar.set_creator,
        registrar.set_predicates, registrar.set_output_products, registrar.destroy]
      rw [hinv]
      rfl
  · cases preds with
    | none =>
      simp only [run_statement, registrar.init, registrar.set_creator,
        registrar.destroy]
      rw [hinv]
      rfl
    | some ps =>
      simp only [run_statement, registrar.init, registrar.set_creator,
        registrar.set_predicates, registrar.destroy]
      rw [hinv]
      rfl

/-- Witness for C3 at a concrete creator and statement, with the eager
construction evaluated at concrete registrar and effect values. -/
theorem C3_witness :
    let c : node_creator := fun ps os => { full_name := "plug:alg", predicates := ps, output_products := os }
    let r1c : registrar := { creator := none, predicates := none, output_products := [] }
    let eff1c : reg_effect :=
      { cat := [("plug:alg",
          { full_name := "plug:alg", predicates := [], output_products := ["y"] })]
        errors := []
        invocations := [([], ["y"])] }
    (r1c.creator = none ∧
      eff1c.invocations = [([], ["y"])] ∧
      (r1c.destroy eff1c.cat eff1c.errors).invocations = []) ∧
    (run_statement c none (some ["y"]) [] []).invocations.length = 1 ∧
    (run_statement c none none [] []).invocations.length = 1 := by
  intro c r1c eff1c
  have h := C3_exactly_one_registration c none [] ["y"] [] []
  exact ⟨h.1 r1c eff1c rfl, h.2.1, h.2.2⟩

/-! ## Theorems about the product-store hierarchy -/

namespace product_store

theorem chain_root (i : List (String × Nat)) (src : String) (st : stage)
    (ps : products) : (mk none i src st ps).chain = [mk none i src st ps] := rfl

theorem chain_child (p : product_store) (i : List (String × Nat)) (src : String)
    (st : stage) (ps : products) :
    (mk (some p) i src st ps).chain = mk (some p) i src st ps :: p.chain := rfl

theorem self_mem_chain : (s : product_store) → s ∈ s.chain
  | mk none _ _ _ _ => by simp [chain_root]
  | mk (some p) i src st ps => by
      rw [chain_child]
      exact List.mem_cons_self _ _

theorem depth_child (p : product_store) (i : List (String × Nat)) (src : String)
    (st : stage) (ps : products) :
    (mk (some p) i src st ps).depth = p.depth + 1 := by
  simp [depth, chain_child]

theorem depth_le_of_mem_chain : (s : product_store) → ∀ t : product_store,
    t ∈ s.chain → t.depth ≤ s.depth
  | mk none i src st ps => by
      intro t ht
      rw [chain_root] at ht
      simp at ht
      rw [ht]
  | mk (some p) i src st ps => by
      intro t ht
      rw [chain_child] at ht
      rcases List.mem_cons.mp ht with h | h
      · rw [h]
      · calc t.depth ≤ p.depth := depth_le_of_mem_chain p t h
          _ ≤ (mk (some p) i src st ps).depth := by
            rw [depth_child]
            exact Nat.le_succ _

theorem depth_lt_of_mem_chain_ne (A B : product_store) (hmem : A ∈ B.chain)
    (hne : A ≠ B) : A.depth < B.depth := by
  match B with
  | mk none i src st ps =>
    rw [chain_root] at hmem
    simp at hmem
    exact absurd hmem hne
  | mk (some p) i src st ps =>
    rw [chain_child] at hmem
    rcases List.mem_cons.mp hmem with h | h
    · exact absurd h hne
    · calc A.depth ≤ p.depth := depth_le_of_mem_chain p A h
        _ < (mk (some p) i src st ps).depth := by
          rw [depth_child]
          exact Nat.lt_succ_self _

theorem not_mem_chain_of_strict_ancestor (A B : product_store)
    (hmem : A ∈ B.chain) (hne : A ≠ B) : B ∉ A.chain := by
  intro hBA
  have h1 := depth_lt_of_mem_chain_ne A B hmem hne
  have h2 := depth_le_of_mem_chain A B hBA
  omega

end product_store

theorem get_most_derived_eq_foldl (l : List product_store) (e : product_store) :
    get_most_derived l e = l.foldl more_derived e := by
  induction l generalizing e with
  | nil => rfl
  | cons x xs ih => simp [get_most_derived, List.foldl, ih]

/-- C4: when A is a (strict) ancestor of B, most_derived over the pair (A, B)
returns the descendant B; when the two stores are incomparable it returns
the second; and most_derived over a non-empty tuple is the left fold of the
binary more_derived over the tuple elements in order. -/
theorem C4_most_derived_rules :
    (∀ A B : product_store, A ∈ B.chain → A ≠ B → most_derived A [B] = B) ∧
    (∀ A B : product_store, A ∉ B.chain → B ∉ A.chain → most_derived A [B] = B) ∧
    (∀ (first : product_store) (rest : List product_store),
       most_derived first rest = rest.foldl more_derived first) := by
  refine ⟨?_, ?_, ?_⟩
  · intro A B hmem hne
    have hnot := product_store.not_mem_chain_of_strict_ancestor A B hmem hne
    simp [most_derived, get_most_derived, more_derived, hnot]
  · intro A B _ hnot
    simp [most_derived, get_most_derived, more_derived, hnot]
  · intro first rest
    cases rest with
    | nil => rfl
    | cons x xs => simp [most_derived, get_most_derived_eq_foldl, List.foldl]

/-- A run-level child of the base store, used as a concrete test store. -/
def run_store : product_store := product_store.base.make_child 1 "run" "" []

/-- A second, incomparable run-level child of the base store. -/
def run_store2 : product_store := product_store.base.make_child 2 "run" "" []

/-- Witness for C4 on concrete ancestor/descendant and incomparable pairs. -/
theorem C4_witness :
    most_derived product_store.base [run_store] = run_store ∧
    most_derived run_store [run_store2] = run_store2 := by
  constructor
  · exact C4_most_derived_rules.1 product_store.base run_store (by decide) (by decide)
  · exact C4_most_derived_rules.2.1 run_store run_store2 (by decide) (by decide)

namespace product_store

theorem store_for_product_eq_find (p : String) : (s : product_store) →
    store_for_product p s = s.chain.find? (fun t => t.contains_product p)
  | mk none i src st ps => by
      rw [chain_root]
      cases h : ((ps.lookup p).isSome : Bool) with
      | true => simp [store_for_product, contains_product, products_of, h, List.find?]
      | false => simp [store_for_product, contains_product, products_of, h, List.find?]
  | mk (some q) i src st ps => by
      rw [chain_child]
      have ih := store_for_product_eq_find p q
      cases h : ((ps.lookup p).isSome : Bool) with
      | true => simp [store_for_product, contains_product, products_of, h, List.find?]
      | false =>
        simp [store_for_product, contains_product, products_of, h, List.find?, ih]

theorem parent_with_level_name_eq_find (ln : String) : (s : product_store) →
    parent_with_level_name ln s = s.chain.find? (fun t => t.level_name == ln)
  | mk none i src st ps => by
      rw [chain_root]
      by_cases h : level_name (mk none i src st ps) = ln
      · simp [parent_with_level_name, h, List.find?]
      · have hb : (level_name (mk none i src st ps) == ln) = false :=
          beq_eq_false_iff_ne.mpr h
        simp [parent_with_level_name, h, hb, List.find?]
  | mk (some q) i src st ps => by
      rw [chain_child]
      have ih := parent_with_level_name_eq_find ln q
      by_cases h : level_name (mk (some q) i src st ps) = ln
      · simp [parent_with_level_name, h, List.find?]
      · have hb : (level_name (mk (some q) i src st ps) == ln) = false :=
          beq_eq_false_iff_ne.mpr h
        simp [parent_with_level_name, h, hb, List.find?, ih]

end product_store

/-- C5: if a store S contains product p, then a store_for_product query for
p on S or on any of its descendants finds an ancestor-or-self store that
contains p; if no ancestor-or-self of the queried store contains p, the
query returns null. -/
theorem C5_store_for_product_walk (d : product_store) (p : String) :
    (∀ S : product_store, S ∈ d.chain → S.contains_product p = true →
       (product_store.store_for_product p d).isSome = true) ∧
    (∀ t : product_store, product_store.store_for_product p d = some t →
       t ∈ d.chain ∧ t.contains_product p = true) ∧
    ((∀ t ∈ d.chain, t.contains_product p = false) →
       product_store.store_for_product p d = none) := by
  refine ⟨?_, ?_, ?_⟩
  · intro S hS hSp
    rw [product_store.store_for_product_eq_find]
    cases hf : d.chain.find? (fun t => t.contains_product p) with
    | none =>
      have hnone := List.find?_eq_none.mp hf S hS
      simp [hSp] at hnone
    | some t => rfl
  · intro t ht
    rw [product_store.store_for_product_eq_find] at ht
    have hp := List.find?_some ht
    exact ⟨List.mem_of_find?_eq_some ht, hp⟩
  · intro hall
    rw [product_store.store_for_product_eq_find]
    apply List.find?_eq_none.mpr
    intro x hx
    simp [hall x hx]

/-- A run-level store carrying a product named x. -/
def store_with_x : product_store := product_store.base.make_child 1 "run" "" [("x", 3)]

/-- An event-level child of the store carrying x, used as the query point. -/
def event_store : product_store := store_with_x.make_child 2 "event" "" []

/-- Witness for C5: querying from a descendant of the owning store finds an
ancestor-or-self owner, and querying for an absent product yields null. -/
theorem C5_witness :
    (product_store.store_for_product "x" event_store).isSome = true ∧
    (store_with_x ∈ event_store.chain ∧ store_with_x.contains_product "x" = true) ∧
    product_store.store_for_product "y" event_store = none := by
  refine ⟨?_, ?_, ?_⟩
  · exact (C5_store_for_product_walk event_store "x").1 store_with_x
      (by decide) (by decide)
  · exact (C5_store_for_product_walk event_store "x").2.1 store_with_x (by decide)
  · exact (C5_store_for_product_walk event_store "y").2.2 (by decide)

/-- C6: the level-name parent query answers with the nearest ancestor-or-self
whose level name matches (the first match along the chain), so the run-level
child of the base store answers its own query for run, while its plain
parent query yields the base store. -/
theorem C6_parent_navigation :
    (∀ (s : product_store) (ln : String),
       product_store.parent_with_level_name ln s
         = s.chain.find? (fun t => t.level_name == ln)) ∧
    product_store.parent_with_level_name "run" run_store = some run_store ∧
    run_store.parent = some product_store.base := by
  refine ⟨fun s ln => product_store.parent_with_level_name_eq_find ln s, by decide, by decide⟩

/-- C7: a continuation store shares the originating store's level id (hence
its level name) and its parent, and carries exactly the new products, for
every store and every product set including the empty one. -/
theorem C7_make_continuation_properties (s : product_store) (src : String)
    (ps : products) :
    (s.make_continuation src ps).id = s.id ∧
    (s.make_continuation src ps).parent = s.parent ∧
    (s.make_continuation src ps).level_name = s.level_name ∧
    (s.make_continuation src ps).products_of = ps ∧
    (s.make_continuation src ps).stage_of = stage.process :=
  ⟨rfl, rfl, rfl, rfl, rfl⟩

/-- C8: every store is at exactly one of the two stages, is_flush holds
exactly at stage flush, make_flush produces a sibling (same parent, same
id) at stage flush with an empty product map, and along the store lifecycle
constructors a flush store never carries products. -/
theorem C8_stage_and_flush_invariants :
    (∀ s : product_store, s.stage_of = stage.process ∨ s.stage_of = stage.flush) ∧
    (∀ s : product_store, ¬(s.stage_of = stage.process ∧ s.stage_of = stage.flush)) ∧
    (∀ s : product_store, s.is_flush = true ↔ s.stage_of = stage.flush) ∧
    (∀ s : product_store,
       s.make_flush.parent = s.parent ∧ s.make_flush.stage_of = stage.flush ∧
       s.make_flush.products_of = [] ∧ s.make_flush.id = s.id) ∧
    (∀ s : product_store, built s → s.is_flush = true → s.products_of = []) := by
  refine ⟨?_, ?_, ?_, ?_, ?_⟩
  · intro s
    cases hst : s.stage_of with
    | process => exact Or.inl rfl
    | flush => exact Or.inr rfl
  · intro s h
    cases h.1.symm.trans h.2
  · intro s
    simp [product_store.is_flush]
  · intro s
    exact ⟨rfl, rfl, rfl, rfl⟩
  · intro s hb
    induction hb with
    | base =>
      intro h
      simp [product_store.is_flush, product_store.base, product_store.stage_of] at h
    | child s n ln src ps _ _ =>
      intro h
      simp [product_store.is_flush, product_store.make_child,
        product_store.stage_of] at h
    | child_at_stage s n ln src st _ _ =>
      intro _
      rfl
    | continuation s src ps _ _ =>
      intro h
      simp [product_store.is_flush, product_store.make_continuation,
        product_store.stage_of] at h
    | flush s _ _ =>
      intro _
      rfl

/-- Witness for C8: the flush sibling of the base store is built and carries
no products. -/
theorem C8_witness : product_store.base.make_flush.products_of = [] :=
  C8_stage_and_flush_invariants.2.2.2.2 product_store.base.make_flush
    (built.flush product_store.base built.base) (by decide)

/-! ## Theorems about fold defaults and the form write trace -/

/-- C9: a fold declared through graph_proxy::fold without explicit partition
or concurrency arguments yields a fold node whose partition key is the
string job and whose concurrency limit is the single serial permit. -/
theorem C9_fold_defaults (Alg Init : Type) (name : String) (f : Alg) (init : Init)
    (inputs predicates output_products : List String) :
    let node := ((graph_proxy_fold name f init).input_family inputs)
      predicates output_products
    node.partition = "job" ∧ node.concurrency = 1 ∧ concurrency.serial.value = 1 :=
  ⟨rfl, rfl, rfl⟩

/-- The registerWrite calls the batch write loop issues, one per element. -/
def batch_writes (names : List (Nat × String)) (creator : String)
    (batch : List product_base) : List persistence_op :=
  batch.map (fun pb => persistence_op.registerWrite creator pb.label pb.data
    (type_name_of names pb.type))

/-- The full persistence trace of a successful non-empty batch write. -/
def batch_trace (names : List (Nat × String)) (creator : String)
    (pb0 : product_base) (rest : List product_base) : List persistence_op :=
  [persistence_op.createContainers creator (write_products_arg names (pb0 :: rest))]
    ++ batch_writes names creator (pb0 :: rest)
    ++ [persistence_op.commitOutput creator pb0.id]

theorem filter_registerWrite_batch_writes (creator : String)
    (names : List (Nat × String)) (l : List product_base) :
    (batch_writes names creator l).filter is_registerWrite
      = batch_writes names creator l := by
  induction l with
  | nil => rfl
  | cons x xs ih => simp_all [batch_writes, is_registerWrite]

theorem filter_commitOutput_batch_writes (creator : String)
    (names : List (Nat × String)) (l : List product_base) :
    (batch_writes names creator l).filter is_commitOutput = [] := by
  induction l with
  | nil => rfl
  | cons x xs ih => simp_all [batch_writes, is_commitOutput]

/-- C10: an empty batch write performs no persistence operation; a non-empty
batch either fails on the configuration lookup of the first element's label
alone, or performs (after container creation) exactly one registerWrite per
batch element, in batch order, followed by a single final commitOutput
carrying the first element's id. -/
theorem C10_form_write_trace (cfg : List (String × PersistenceItem))
    (names : List (Nat × String)) (creator : String) :
    (form_interface_write cfg names creator [] = Except.ok []) ∧
    (∀ (pb0 : product_base) (rest : List product_base),
      (cfg.lookup pb0.label = none →
        form_interface_write cfg names creator (pb0 :: rest)
          = Except.error ("No configuration found for product: " ++ pb0.label)) ∧
      (∀ item : PersistenceItem, cfg.lookup pb0.label = some item →
        form_interface_write cfg names creator (pb0 :: rest)
          = Except.ok (batch_trace names creator pb0 rest) ∧
        (batch_trace names creator pb0 rest).filter is_registerWrite
          = batch_writes names creator (pb0 :: rest) ∧
        ((batch_trace names creator pb0 rest).filter is_registerWrite).length
          = (pb0 :: rest).length ∧
        (batch_trace names creator pb0 rest).filter is_commitOutput
          = [persistence_op.commitOutput creator pb0.id] ∧
        (batch_trace names creator pb0 rest).getLast?
          = some (persistence_op.commitOutput creator pb0.id))) := by
  refine ⟨rfl, ?_⟩
  intro pb0 rest
  constructor
  · intro h
    simp [form_interface_write, h]
  · intro item h
    have hok : form_interface_write cfg names creator (pb0 :: rest)
        = Except.ok (batch_trace names creator pb0 rest) := by
      simp [form_interface_write, h, batch_trace, batch_writes]
    have hfilter : (batch_trace names creator pb0 rest).filter is_registerWrite
        = batch_writes names creator (pb0 :: rest) := by
      rw [batch_trace, List.filter_append, List.filter_append,
        filter_registerWrite_batch_writes]
      simp [is_registerWrite]
    have hlen : ((batch_trace names creator pb0 rest).filter is_registerWrite).length
        = (pb0 :: rest).length := by
      rw [hfilter, batch_writes]
      exact List.length_map _ _
    have hcommit : (batch_trace names creator pb0 rest).filter is_commitOutput
        = [persistence_op.commitOutput creator pb0.id] := by
      rw [batch_trace, List.filter_append, List.filter_append,
        filter_commitOutput_batch_writes]
      simp [is_commitOutput]
    have hlast : (batch_trace names creator pb0 rest).getLast?
        = some (persistence_op.commitOutput creator pb0.id) := by
      rw [batch_trace, List.getLast?_concat]
    exact ⟨hok, hfilter, hlen, hcommit, hlast⟩

/-- A persistence configuration with one product named trk. -/
def cfg0 : List (String × PersistenceItem) :=
  [("trk", { product_name := "trk", file_name := "toy.root", technology := 0 })]

/-- A type map naming type index 0. -/
def names0 : List (Nat × String) := [(0, "float")]

/-- A concrete product heading for persistence. -/
def pb_trk : product_base := { label := "trk", id := "evt0", data := 7, type := 0 }

/-- Witness for C10: a singleton batch with a configured product label. -/
theorem C10_witness :
    form_interface_write cfg0 names0 "writer" [pb_trk]
      = Except.ok (batch_trace names0 "writer" pb_trk []) ∧
    (batch_trace names0 "writer" pb_trk []).filter is_registerWrite
      = batch_writes names0 "writer" [pb_trk] ∧
    ((batch_trace names0 "writer" pb_trk []).filter is_registerWrite).length
      = [pb_trk].length ∧
    (batch_trace names0 "writer" pb_trk []).filter is_commitOutput
      = [persistence_op.commitOutput "writer" pb_trk.id] ∧
    (batch_trace names0 "writer" pb_trk []).getLast?
      = some (persistence_op.commitOutput "writer" pb_trk.id) :=
  ((C10_form_write_trace cfg0 names0 "writer").2 pb_trk []).2
    { product_name := "trk", file_name := "toy.root", technology := 0 } (by decide)

end Phlex
